import Mathlib

/-!
Verification of the competitor-ASIN discovery pipeline (`src/app.py`).

The development shallowly embeds the pipeline's pure logic:

* `_format_price`        — currency-text normalization (app.py 46-53)
* `_scrape_related_asins_from_dp` — HTML fallback discovery (app.py 102-136)
* `_keepa_fetch_related_rest`     — structured Keepa REST discovery (app.py 139-193)
* `_fetch_mobile_product_snapshot`/`enrichAll` — per-ASIN enrichment (app.py 55-100, 333-341)
* `score_and_filter`     — relevance scoring and filtering (app.py 196-275)
* `discoveryPhase`       — the module-level fallback chain (app.py 314-326)

Network responses, parsed DOM content and Python's hash-dependent `set`
iteration order are modelled as explicit oracle parameters; everything the
Python code computes itself is translated directly.  Characters are handled
at ASCII precision (all identifier and keyword data in scope is ASCII).
-/

/-! ### Character-level models of Python string primitives (ASCII) -/

/-- Model of Python `str.lower` on one character (ASCII range). -/
def pyLowerChar (c : Char) : Char :=
  if 65 ≤ c.toNat && c.toNat ≤ 90 then Char.ofNat (c.toNat + 32) else c

/-- Model of Python `str.upper` on one character (ASCII range). -/
def pyUpperChar (c : Char) : Char :=
  if 97 ≤ c.toNat && c.toNat ≤ 122 then Char.ofNat (c.toNat - 32) else c

/-- Whitespace as stripped by Python `str.strip` (ASCII range). -/
def isSpaceChar (c : Char) : Bool :=
  c.toNat = 32 || (9 ≤ c.toNat && c.toNat ≤ 13)

/-- Model of Python `str.lower`. -/
def pyLower (s : String) : String := ⟨s.data.map pyLowerChar⟩

/-- Model of Python `str.upper`. -/
def pyUpper (s : String) : String := ⟨s.data.map pyUpperChar⟩

/-- Model of Python `str.strip`: drop leading and trailing whitespace. -/
def pyStrip (s : String) : String :=
  ⟨((s.data.dropWhile isSpaceChar).reverse.dropWhile isSpaceChar).reverse⟩

/-- Python substring test `needle in hay` (for use on already-normalized text). -/
def isSubstr (needle hay : String) : Bool := decide (needle.data <:+: hay.data)

/-! ### Price normalization (`_format_price`, app.py 46-53) -/

/-- Value of a digit string, as read left to right by Python `float`. -/
def digitsToNat (cs : List Char) : Nat :=
  cs.foldl (fun a c => a * 10 + (c.toNat - 48)) 0

/-- Model of Python `float(v)` restricted to strings of digits and dots
(the only characters that survive `_format_price`'s filtering): at most one
dot and at least one digit, else a `ValueError` (`none`). -/
def pyFloat (cs : List Char) : Option ℚ :=
  match cs.splitOn '.' with
  | [ip] =>
    if ip ≠ [] && ip.all Char.isDigit then some (digitsToNat ip) else none
  | [ip, fp] =>
    if (ip ++ fp) ≠ [] && (ip ++ fp).all Char.isDigit then
      some ((digitsToNat (ip ++ fp) : ℚ) / (10 : ℚ) ^ fp.length)
    else none
  | _ => none

/-- Function `_format_price` (app.py 46-53): keep only digits, dots and commas, then
delete the commas, then parse as a decimal number; anything unparsable is
absent (`None`). -/
def _format_price (txt : Option String) : Option ℚ :=
  match txt with
  | none => none
  | some s =>
    let v := (s.data.filter fun c => c.isDigit || c = '.' || c = ',').filter
      fun c => c ≠ ','
    pyFloat v

/-! ### Identifier pattern checks -/

/-- A character allowed after the `B0` prefix: `[A-Z0-9]`. -/
def isAsinChar (c : Char) : Bool :=
  (65 ≤ c.toNat && c.toNat ≤ 90) || (48 ≤ c.toNat && c.toNat ≤ 57)

/-- Model of `re.fullmatch(r"B0[A-Z0-9]{8}", ·)` on a character list. -/
def isValidAsinChars : List Char → Bool
  | 'B' :: '0' :: rest => rest.length = 8 && rest.all isAsinChar
  | _ => false

/-- Model of `re.fullmatch(r"B0[A-Z0-9]{8}", s)`. -/
def isValidAsin (s : String) : Bool := isValidAsinChars s.data

/-- The seed-format validation `re.fullmatch(r"[Bb]0[A-Za-z0-9]{8}", ·)`
(app.py 309). -/
def isSeedValid (s : String) : Bool :=
  match s.data with
  | b :: z :: rest =>
    (b = 'B' || b = 'b') && z = '0' && rest.length = 8 && rest.all Char.isAlphanum
  | _ => false

/-! ### The page-scrape discovery source (`_scrape_related_asins_from_dp`)

The fetched document is an oracle: `none` models a transport error, a
non-200 status or a parse exception (the code's `except` branch / early
return), and `some page` provides, in document order, the values of all
`data-asin` attributes and all anchor `href`s found by BeautifulSoup.
Python's `set` keeps one copy of each element; its iteration order is the
hash order, modelled by the oracle `enumSet` applied to the first-seen
insertion-order listing of the set's contents. -/

/-- A scraped product detail page, reduced to the two signals the code reads. -/
structure ScrapePage where
  dataAsinAttrs : List String
  hrefs : List String

/-- Model of `set.add`: contents in first-seen insertion order, one copy each. -/
def pySetAdd (l : List String) (x : String) : List String :=
  if x ∈ l then l else l ++ [x]

/-- Model of `re.search(r"/dp/(B0[A-Z0-9]{8})", ·)`: leftmost occurrence of `/dp/`
followed by a ten-character identifier; returns the captured group. -/
def findDpAsin : List Char → Option (List Char)
  | [] => none
  | c :: rest =>
    if c = '/' && rest.take 3 = ['d', 'p', '/']
        && isValidAsinChars ((rest.drop 3).take 10) then
      some ((rest.drop 3).take 10)
    else findDpAsin rest

/-- Contents accumulated by `_scrape_related_asins_from_dp` before the cap
(app.py 118-133): the set seeded with `asin.upper()`, grown from the
`data-asin` attributes and the `/dp/` links, then with the seed discarded.
The list is the set's contents in first-seen insertion order. -/
def scrapeSetContents (pg : ScrapePage) (asin : String) : List String :=
  let s0 : List String := [pyUpper asin]
  let s1 := pg.dataAsinAttrs.foldl
    (fun acc t =>
      let cand := pyUpper (pyStrip t)
      if isValidAsin cand then pySetAdd acc cand else acc) s0
  let s2 := pg.hrefs.foldl
    (fun acc h =>
      match findDpAsin (pyUpper h).data with
      | some cs => pySetAdd acc (String.mk cs)
      | none => acc) s1
  s2.filter fun x => x ≠ pyUpper asin

/-- Function `_scrape_related_asins_from_dp` (app.py 102-136).  `enumSet` is the
hash-order oracle turning set contents into `list(asins)`. -/
def _scrape_related_asins_from_dp (enumSet : List String → List String)
    (page : Option ScrapePage) (asin : String) (max_items : Nat) : List String :=
  match page with
  | none => []
  | some pg => (enumSet (scrapeSetContents pg asin)).take max_items

/-! ### The structured discovery source (`_keepa_fetch_related_rest`) -/

/-- The first product of a Keepa response, reduced to the four relation
fields the code reads (absent fields modelled as `[]`, matching
`p.get(k, []) or []`). -/
structure KeepaProduct where
  alsoBought : List String
  alsoViewed : List String
  frequentlyBoughtTogether : List String
  related : List String

/-- A decoded Keepa REST response: optional error indicator and products
array (`none`/`[]` model absent fields). -/
structure KeepaResponse where
  error : Option String
  products : List KeepaProduct

/-- The `related` set built by app.py 176-182: iterate the four relation
fields in order, uppercase each entry, keep the pattern matches.  The list
is the set's contents in first-seen insertion order. -/
def keepaMatched (p : KeepaProduct) : List String :=
  (p.alsoBought ++ p.alsoViewed ++ p.frequentlyBoughtTogether ++ p.related).foldl
    (fun acc x =>
      let xu := pyUpper x
      if isValidAsin xu then pySetAdd acc xu else acc) []

/-- The matched set after `related.discard(asin.upper())` (app.py 184), in
first-seen insertion order. -/
def keepaInsertionOrder (p : KeepaProduct) (asin : String) : List String :=
  (keepaMatched p).filter fun x => x ≠ pyUpper asin

/-- Function `_keepa_fetch_related_rest` (app.py 139-193).  The HTTP exchange is the
oracle `resp` (`none` = request/JSON failure, i.e. the `except` branch);
`enumSet` is the hash-order oracle for `list(related)`.  Returns the
candidate list and the diagnostic message, as the code does. -/
def _keepa_fetch_related_rest (enumSet : List String → List String)
    (asin : String) (api_key : String) (max_items : Nat)
    (resp : Option KeepaResponse) : List String × Option String :=
  if api_key = "" then
    ([], some "no Keepa API key detected, falling back to HTML parsing")
  else
    match resp with
    | none => ([], some "Keepa API request failed")
    | some data =>
      if (data.error.getD "") ≠ "" then ([], some "Keepa API error")
      else
        match data.products with
        | [] => ([], some "Keepa returned no product data")
        | p :: _ =>
          let out := (enumSet (keepaInsertionOrder p asin)).take max_items
          if out = [] then (out, some "Keepa connected but returned no related ASINs")
          else (out, none)

/-! ### The module-level discovery fallback chain (app.py 314-326) -/

/-- Step 1 of the chain: `related_asins` after the Keepa attempt.  The code
initializes `related_asins = []` and only overwrites it when
`prefer_keepa and KEEPA_KEY` holds. -/
def structuredPhase (prefer_keepa : Bool) (keepa_key : String)
    (enumSet : List String → List String) (resp : Option KeepaResponse)
    (seed : String) (max_items : Nat) : List String × Option String :=
  if prefer_keepa && keepa_key ≠ "" then
    _keepa_fetch_related_rest enumSet seed keepa_key max_items resp
  else ([], none)

/-- The discovery outcome: the final candidate list and whether the HTML
fallback ran. -/
structure DiscoveryOutcome where
  related_asins : List String
  scrape_ran : Bool

/-- The fallback chain (app.py 314-326): run the structured phase, then run
the page scrape exactly when `not related_asins`. -/
def discoveryPhase (prefer_keepa : Bool) (keepa_key : String)
    (enumSet : List String → List String) (resp : Option KeepaResponse)
    (page : Option ScrapePage) (seed : String) (max_items : Nat) :
    DiscoveryOutcome :=
  let ra := (structuredPhase prefer_keepa keepa_key enumSet resp seed max_items).1
  if ra = [] then
    ⟨_scrape_related_asins_from_dp enumSet page seed max_items, true⟩
  else ⟨ra, false⟩

/-! ### Enrichment (`_fetch_mobile_product_snapshot`, app.py 55-100, 333-341) -/

/-- What the code extracts from a fetched mobile page: the `#title` text,
the first price element's text, and the rating / review-count values its
regexes recover (already-parsed, since the DOM is environment data). -/
structure MobilePage where
  titleText : Option String
  priceText : Option String
  ratingVal : Option ℚ
  reviewsVal : Option Nat

/-- Outcome of one `requests.get` on the mobile page: an exception anywhere
in the `try` block, or a response with a status code and parsed content. -/
inductive FetchOutcome where
  | failed : FetchOutcome
  | got : Nat → MobilePage → FetchOutcome

/-- One enriched row (the dict built by `_fetch_mobile_product_snapshot`). -/
structure ProductSnapshot where
  asin : String
  title : Option String
  price : Option ℚ
  rating : Option ℚ
  reviews : Option Nat
  url : String
deriving DecidableEq

/-- Function `_fetch_mobile_product_snapshot` (app.py 55-100): on exception or a
non-200 status every optional field is absent; otherwise each field is the
best-effort extraction, with the price text run through `_format_price`. -/
def _fetch_mobile_product_snapshot (fetch : String → FetchOutcome)
    (domain asin : String) : ProductSnapshot :=
  let url := "https://" ++ domain ++ "/dp/" ++ asin
  match fetch asin with
  | .failed => ⟨asin, none, none, none, none, url⟩
  | .got status pg =>
    if status ≠ 200 then ⟨asin, none, none, none, none, url⟩
    else ⟨asin, pg.titleText, _format_price pg.priceText, pg.ratingVal,
      pg.reviewsVal, url⟩

/-- The enrichment loop (app.py 333-341): one snapshot appended per
discovered identifier, in order. -/
def enrichAll (fetch : String → FetchOutcome) (domain : String)
    (asins : List String) : List ProductSnapshot :=
  asins.map (_fetch_mobile_product_snapshot fetch domain)

/-! ### Relevance scoring and filtering (`score_and_filter`, app.py 196-275) -/

/-- The filter criteria (UI inputs handed to `score_and_filter`). -/
structure FilterCriteria where
  include_terms : List String
  exclude_terms : List String
  price_min : Option ℚ
  price_max : Option ℚ
  rating_min : Option ℚ
  reviews_min : Option Nat

/-- A row of the working frame after title normalization (app.py 216):
missing titles become `""` and the title is lowercased. -/
structure WorkRow where
  asin : String
  title : String
  price : Option ℚ
  rating : Option ℚ
  reviews : Option Nat
  url : String
deriving DecidableEq

/-- Title normalization `work["title"] = work.get("title", "").fillna("").astype(str).str.lower()` (app.py 216). -/
def normalizeRow (r : ProductSnapshot) : WorkRow :=
  ⟨r.asin, pyLower (r.title.getD ""), r.price, r.rating, r.reviews, r.url⟩

/-- Predicate `contains_any` (app.py 218-226): some term, once stripped and lowercased,
is non-empty and occurs in the text. -/
def contains_any (text : String) (terms : List String) : Bool :=
  terms.any fun t =>
    let t2 := pyLower (pyStrip t)
    t2 ≠ "" && isSubstr t2 text

/-- The term preprocessing at app.py 228-229:
`[t.strip().lower() for t in (terms or []) if t.strip()]`. -/
def prepTerms (ts : List String) : List String :=
  (ts.filter fun t => pyStrip t ≠ "").map fun t => pyLower (pyStrip t)

/-- How an absent value of a numeric column reads back out of the frame
built by `pd.DataFrame(rows, ...)` at app.py 341.  `pandas` types each
column from its values: a numeric column that mixes numbers with `None`
becomes `float64` and stores `NaN` for the absences, while a column whose
values are all `None` stays `object` and keeps the literal `None`. -/
inductive AbsentKind where
  | asNone : AbsentKind
  | asNaN : AbsentKind
deriving DecidableEq

/-- The absent-value representation of one numeric column: `NaN` as soon
as any value in the column is present, literal `None` only when the whole
column is absent. -/
def columnKind {α : Type} (vals : List (Option α)) : AbsentKind :=
  if vals.any fun v => v.isSome then .asNaN else .asNone

/-- The per-row body of the loop at app.py 232-263, producing the row's
relevance score and its drop decision.  `inc` and `exc` are the
preprocessed term lists; `kRat` and `kRev` say how this batch's frame
represents an absent rating / review count (see `AbsentKind`).

Threshold semantics, traced from app.py 252-261:
* price (252-255): `isinstance(price, (int, float))` is `False` for `None`
  and `True` for `NaN`, but `nan < price_min` and `nan > price_max` are
  both `False` — an absent price never drops, under either representation;
* rating (257): `rating is None` fires only on the literal `None`; `NaN`
  is not `None` and `nan < rating_min` is `False`, so a `NaN` rating does
  not drop even though the code's `is None` test shows it meant to;
* reviews (259): same shape as the rating check. -/
def rowDecision (inc exc : List String) (c : FilterCriteria)
    (kRat kRev : AbsentKind) (w : WorkRow) : Nat × Bool :=
  if contains_any w.title exc then (0, true)
  else
    let score := (inc.filter fun t => isSubstr t w.title).length
    let dropPmin : Bool :=
      match c.price_min, w.price with
      | some pm, some p => decide (p < pm)
      | _, _ => false
    let dropPmax : Bool :=
      match c.price_max, w.price with
      | some pM, some p => decide (pM < p)
      | _, _ => false
    let dropRat : Bool :=
      match c.rating_min, w.rating with
      | some rm, some ra => decide (ra < rm)
      | some _, none =>
        match kRat with
        | .asNone => true
        | .asNaN => false
      | none, _ => false
    let dropRev : Bool :=
      match c.reviews_min, w.reviews with
      | some vm, some v => decide (v < vm)
      | some _, none =>
        match kRev with
        | .asNone => true
        | .asNaN => false
      | none, _ => false
    (score, dropPmin || dropPmax || dropRat || dropRev)

/-- A row with its `RelevanceScore` column (app.py 265). -/
structure ScoredRow where
  row : WorkRow
  score : Nat
deriving DecidableEq

/-- One iteration of the scoring loop on one input snapshot: the scored row
and its entry in `drops_mask`. -/
def evalRow (inc exc : List String) (c : FilterCriteria)
    (kRat kRev : AbsentKind) (r : ProductSnapshot) : ScoredRow × Bool :=
  let w := normalizeRow r
  ((⟨w, (rowDecision inc exc c kRat kRev w).1⟩ : ScoredRow),
    (rowDecision inc exc c kRat kRev w).2)

/-- How the frame built from this batch represents an absent rating. -/
def ratingKind (rows : List ProductSnapshot) : AbsentKind :=
  columnKind (rows.map fun r => r.rating)

/-- How the frame built from this batch represents an absent review count. -/
def reviewsKind (rows : List ProductSnapshot) : AbsentKind :=
  columnKind (rows.map fun r => r.reviews)

/-- All scored rows paired with their mask entries, in input order.  The
absent-value representations are fixed per column by the whole batch, as
`pd.DataFrame` fixes each column's dtype. -/
def allScored (rows : List ProductSnapshot) (c : FilterCriteria) :
    List (ScoredRow × Bool) :=
  rows.map (evalRow (prepTerms c.include_terms) (prepTerms c.exclude_terms) c
    (ratingKind rows) (reviewsKind rows))

/-- Selection `work.loc[[not x for x in drops_mask]]`: the kept rows before sorting,
in input order. -/
def keptPre (rows : List ProductSnapshot) (c : FilterCriteria) : List ScoredRow :=
  ((allScored rows c).filter fun p => !p.2).map fun p => p.1

/-- Selection `work.loc[drops_mask]`: the dropped rows, in input order. -/
def droppedRows (rows : List ProductSnapshot) (c : FilterCriteria) : List ScoredRow :=
  ((allScored rows c).filter fun p => p.2).map fun p => p.1

/-- The triple sort key of app.py 269-273.  `pandas` sorts the three columns
lexicographically, each descending, with missing values last at every level;
that is exactly the lexicographic order on
`score, reviews, rating` with absent values at the bottom. -/
def rowKey (s : ScoredRow) : Nat × Option Nat × Option ℚ :=
  (s.score, s.row.reviews, s.row.rating)

/-- An optional value as a `WithBot` element (absent = bottom, so that it
sorts last in the descending order, as `pandas` places `NaN`). -/
def obNat : Option Nat → WithBot Nat
  | none => ⊥
  | some n => (n : WithBot Nat)

/-- Companion of `obNat` for rational columns. -/
def obRat : Option ℚ → WithBot ℚ
  | none => ⊥
  | some q => (q : WithBot ℚ)

/-- The sort key mapped into a lexicographic linear order. -/
def sortKey (s : ScoredRow) : Nat ×ₗ ((WithBot Nat) ×ₗ (WithBot ℚ)) :=
  toLex (s.score, toLex (obNat s.row.reviews, obRat s.row.rating))

/-- The comparator realized by
`sort_values(by=[score, reviews, rating], ascending=[False, False, False])`:
`a` may precede `b` exactly when `a`'s key is at least `b`'s. -/
def keyLe (a b : ScoredRow) : Bool := decide (sortKey b ≤ sortKey a)

/-- Function `score_and_filter` (app.py 196-275): kept rows sorted by the descending
triple key with the stable `mergesort` kind, dropped rows in input order. -/
def score_and_filter (rows : List ProductSnapshot) (c : FilterCriteria) :
    List ScoredRow × List ScoredRow :=
  (List.mergeSort (keptPre rows c) keyLe, droppedRows rows c)

/-- The set contents that `_keepa_fetch_related_rest` enumerates on its
success path, for an arbitrary response (empty when no product is present). -/
def keepaContents (seed : String) (resp : Option KeepaResponse) : List String :=
  match resp with
  | none => []
  | some data =>
    match data.products with
    | [] => []
    | p :: _ => keepaInsertionOrder p seed

/-- The set contents that `_scrape_related_asins_from_dp` enumerates, for an
arbitrary page outcome. -/
def scrapeContents (page : Option ScrapePage) (seed : String) : List String :=
  match page with
  | none => []
  | some pg => scrapeSetContents pg seed

/-! ### Helper lemmas -/

theorem charToNat_ofNat {n : Nat} (h : n.isValidChar) : (Char.ofNat n).toNat = n := by
  simp only [Char.ofNat, dif_pos h]
  rfl

theorem fetch_snapshot_asin (fetch : String → FetchOutcome) (d a : String) :
    (_fetch_mobile_product_snapshot fetch d a).asin = a := by
  unfold _fetch_mobile_product_snapshot
  cases fetch a
  · rfl
  · dsimp only
    split <;> rfl

theorem pySetAdd_mem {l : List String} {x y : String} (h : y ∈ pySetAdd l x) :
    y ∈ l ∨ y = x := by
  unfold pySetAdd at h
  split at h
  · exact Or.inl h
  · simpa using h

theorem foldl_inv {α : Type} {P : String → Prop} {f : List String → α → List String}
    (hf : ∀ acc x, (∀ y ∈ acc, P y) → ∀ y ∈ f acc x, P y) :
    ∀ (xs : List α) (acc : List String), (∀ y ∈ acc, P y) →
      ∀ y ∈ xs.foldl f acc, P y
  | [], _, hacc => hacc
  | x :: xs, acc, hacc => foldl_inv hf xs (f acc x) (hf acc x hacc)

theorem keepaMatched_valid (p : KeepaProduct) :
    ∀ y ∈ keepaMatched p, isValidAsin y = true := by
  unfold keepaMatched
  refine foldl_inv ?_ _ _ (by simp)
  intro acc x hacc y hy
  dsimp only at hy
  split at hy
  · rcases pySetAdd_mem hy with h | h
    · exact hacc _ h
    · subst h; assumption
  · exact hacc _ hy

theorem findDpAsin_valid : ∀ (cs : List Char) (out : List Char),
    findDpAsin cs = some out → isValidAsinChars out = true
  | [], _, h => by simp [findDpAsin] at h
  | c :: rest, out, h => by
    rw [findDpAsin] at h
    split at h
    · rename_i hc
      cases h
      exact (Bool.and_eq_true _ _ |>.mp hc).2
    · exact findDpAsin_valid rest out h

theorem scrapeSetContents_valid (pg : ScrapePage) (seed : String) :
    ∀ y ∈ scrapeSetContents pg seed,
      y = pyUpper seed ∨ isValidAsin y = true := by
  unfold scrapeSetContents
  intro y hy
  rw [List.mem_filter] at hy
  refine foldl_inv (P := fun y => y = pyUpper seed ∨ isValidAsin y = true)
    (f := fun acc h =>
      match findDpAsin (pyUpper h).data with
      | some cs => pySetAdd acc (String.mk cs)
      | none => acc) ?_ pg.hrefs _ ?_ y hy.1
  · intro acc x hacc z hz
    dsimp only at hz
    split at hz
    · rcases pySetAdd_mem hz with h | h
      · exact hacc _ h
      · rename_i cs heq
        subst h
        exact Or.inr (findDpAsin_valid _ _ heq)
    · exact hacc _ hz
  · refine foldl_inv (P := fun y => y = pyUpper seed ∨ isValidAsin y = true)
      (f := fun acc t =>
        let cand := pyUpper (pyStrip t)
        if isValidAsin cand then pySetAdd acc cand else acc) ?_ pg.dataAsinAttrs _ ?_
    · intro acc x hacc z hz
      dsimp only at hz
      split at hz
      · rcases pySetAdd_mem hz with h | h
        · exact hacc _ h
        · subst h; right; assumption
      · exact hacc _ hz
    · intro z hz
      rw [List.mem_singleton] at hz
      exact Or.inl hz

theorem pyUpperChar_of_valid {z : Char} (h : isAsinChar z = true) :
    pyUpperChar z = z := by
  unfold isAsinChar at h
  unfold pyUpperChar
  rw [if_neg]
  simp only [Bool.or_eq_true, Bool.and_eq_true, decide_eq_true_eq] at h
  simp only [Bool.and_eq_true, decide_eq_true_eq, not_and]
  omega

theorem upperFix_of_validChars {l : List Char} (h : isValidAsinChars l = true) :
    l.map pyUpperChar = l := by
  unfold isValidAsinChars at h
  split at h
  · rename_i rest
    rw [Bool.and_eq_true, List.all_eq_true] at h
    simp only [List.map_cons]
    rw [ List.map_congr_left fun a ha => pyUpperChar_of_valid (h.2 a ha)]
    simp [show pyUpperChar 'B' = 'B' from by decide,
      show pyUpperChar '0' = '0' from by decide]
  · exact absurd h (by simp)

theorem pyUpper_of_valid {x : String} (h : isValidAsin x = true) : pyUpper x = x := by
  obtain ⟨l⟩ := x
  exact congrArg String.mk (upperFix_of_validChars h)

theorem scrapeSetContents_mem {pg : ScrapePage} {seed y : String}
    (h : y ∈ scrapeSetContents pg seed) :
    isValidAsin y = true ∧ y ≠ pyUpper seed := by
  have hne : y ≠ pyUpper seed := by
    unfold scrapeSetContents at h
    rw [List.mem_filter] at h
    simpa using h.2
  rcases scrapeSetContents_valid pg seed y h with he | hv
  · exact absurd he hne
  · exact ⟨hv, hne⟩

theorem keepaInsertionOrder_mem {p : KeepaProduct} {seed y : String}
    (h : y ∈ keepaInsertionOrder p seed) :
    isValidAsin y = true ∧ y ≠ pyUpper seed := by
  unfold keepaInsertionOrder at h
  rw [List.mem_filter] at h
  exact ⟨keepaMatched_valid p _ h.1, by simpa using h.2⟩

/-! ### Claim theorems -/

/-- C8: `_format_price` maps `"£12,345.67"` to the decimal `12345.67`,
`"N/A"` to absent, and `""` to absent. -/
theorem format_price_spec :
    _format_price (some "£12,345.67") = some (12345.67 : ℚ) ∧
    _format_price (some "N/A") = none ∧
    _format_price (some "") = none := by
  refine ⟨?_, rfl, rfl⟩
  have h1 : _format_price (some "£12,345.67")
      = some (((1234567 : ℕ) : ℚ) / (10 : ℚ) ^ 2) := rfl
  rw [h1]
  norm_num

/-- C1: the page-scrape fallback runs exactly when the structured (Keepa
REST) phase of the discovery chain produced an empty candidate list. -/
theorem scrape_iff_structured_empty (pk : Bool) (key : String)
    (enumSet : List String → List String) (resp : Option KeepaResponse)
    (page : Option ScrapePage) (seed : String) (n : Nat) :
    (discoveryPhase pk key enumSet resp page seed n).scrape_ran = true ↔
      (structuredPhase pk key enumSet resp seed n).1 = [] := by
  unfold discoveryPhase
  by_cases h : (structuredPhase pk key enumSet resp seed n).1 = [] <;> simp [h]

/-- C9: the candidate list of either discovery source has size at most the
caller-supplied maximum. -/
theorem discovery_capped (enumSet : List String → List String)
    (page : Option ScrapePage) (resp : Option KeepaResponse)
    (seed key : String) (n : Nat) :
    (_scrape_related_asins_from_dp enumSet page seed n).length ≤ n ∧
    (_keepa_fetch_related_rest enumSet seed key n resp).1.length ≤ n := by
  constructor
  · unfold _scrape_related_asins_from_dp
    cases page
    · simp
    · simp
  · unfold _keepa_fetch_related_rest
    split
    · simp
    · split
      · simp
      · split
        · simp
        · split
          · simp
          · dsimp only
            split <;> simp

/-- C4: enrichment returns exactly one snapshot per input identifier, in
input order, carrying that identifier, regardless of fetch outcomes. -/
theorem enrich_one_snapshot_each (fetch : String → FetchOutcome) (d : String)
    (asins : List String) :
    (enrichAll fetch d asins).length = asins.length ∧
    (enrichAll fetch d asins).map ProductSnapshot.asin = asins := by
  refine ⟨by simp [enrichAll], ?_⟩
  unfold enrichAll
  rw [List.map_map]
  have hall : ∀ a ∈ asins,
      (ProductSnapshot.asin ∘ _fetch_mobile_product_snapshot fetch d) a = id a :=
    fun a _ => fetch_snapshot_asin fetch d a
  rw [ List.map_congr_left hall, List.map_id]

theorem keepa_out_subset (enumSet : List String → List String)
    (seed key : String) (n : Nat) (resp : Option KeepaResponse)
    (hK : (enumSet (keepaContents seed resp)).Perm (keepaContents seed resp)) :
    ∀ x ∈ (_keepa_fetch_related_rest enumSet seed key n resp).1,
      x ∈ keepaContents seed resp := by
  intro x hx
  unfold _keepa_fetch_related_rest at hx
  by_cases hkey : key = ""
  · simp [hkey] at hx
  · cases resp with
    | none => simp [hkey] at hx
    | some data =>
      by_cases herr : (data.error.getD "") ≠ ""
      · simp [hkey, herr] at hx
      · rcases hprod : data.products with _ | ⟨p, rest⟩
        · simp [hkey, herr, hprod] at hx
        · simp only [hkey, herr, hprod, if_neg, if_false, ite_false,
            reduceIte] at hx
          have hx1 : x ∈ List.take n (enumSet (keepaInsertionOrder p seed)) := by
            simp only [apply_ite Prod.fst, ite_self] at hx
            exact hx
          have hceq : keepaContents seed (some data) = keepaInsertionOrder p seed := by
            simp [keepaContents, hprod]
          rw [hceq] at hK ⊢
          exact hK.subset (List.mem_of_mem_take hx1)

/-- C6: neither discovery source ever returns the seed identifier itself,
comparing case-insensitively.  The two permutation facts say that the
hash-order enumeration `list(·)` lists exactly the elements of the set it
is applied to. -/
theorem seed_never_in_discovery (enumSet : List String → List String)
    (page : Option ScrapePage) (resp : Option KeepaResponse)
    (seed key : String) (n : Nat)
    (hseed : isSeedValid seed = true)
    (hS : (enumSet (scrapeContents page seed)).Perm (scrapeContents page seed))
    (hK : (enumSet (keepaContents seed resp)).Perm (keepaContents seed resp)) :
    (∀ x ∈ _scrape_related_asins_from_dp enumSet page seed n,
      pyUpper x ≠ pyUpper seed) ∧
    (∀ x ∈ (_keepa_fetch_related_rest enumSet seed key n resp).1,
      pyUpper x ≠ pyUpper seed) := by
  constructor
  · intro x hx
    unfold _scrape_related_asins_from_dp at hx
    cases page with
    | none => simp at hx
    | some pg =>
      have hx2 : x ∈ enumSet (scrapeContents (some pg) seed) :=
        List.mem_of_mem_take hx
      have hx3 : x ∈ scrapeSetContents pg seed := hS.subset hx2
      obtain ⟨hv, hne⟩ := scrapeSetContents_mem hx3
      rw [pyUpper_of_valid hv]
      exact hne
  · intro x hx
    have hxc : x ∈ keepaContents seed resp :=
      keepa_out_subset enumSet seed key n resp hK x hx
    cases resp with
    | none => simp [keepaContents] at hxc
    | some data =>
      rcases hprod : data.products with _ | ⟨p, rest⟩
      · simp [keepaContents, hprod] at hxc
      · rw [show keepaContents seed (some data) = keepaInsertionOrder p seed by
          simp [keepaContents, hprod]] at hxc
        obtain ⟨hv, hne⟩ := keepaInsertionOrder_mem hxc
        rw [pyUpper_of_valid hv]
        exact hne

/-- Witness for C6 at a concrete page, response and seed. -/
theorem seed_never_in_discovery_witness :
    (isSeedValid "b0seedSEED" = true ∧
      (id (scrapeContents (some ⟨["B0AAAAAAA1"], []⟩) "b0seedSEED")).Perm
        (scrapeContents (some ⟨["B0AAAAAAA1"], []⟩) "b0seedSEED") ∧
      (id (keepaContents "b0seedSEED"
          (some ⟨none, [⟨["B0SEEDSEED", "B0BBBBBBB2"], [], [], []⟩]⟩))).Perm
        (keepaContents "b0seedSEED"
          (some ⟨none, [⟨["B0SEEDSEED", "B0BBBBBBB2"], [], [], []⟩]⟩))) ∧
    ((∀ x ∈ _scrape_related_asins_from_dp id
        (some ⟨["B0AAAAAAA1"], []⟩) "b0seedSEED" 120,
      pyUpper x ≠ pyUpper "b0seedSEED") ∧
    (∀ x ∈ (_keepa_fetch_related_rest id "b0seedSEED" "k" 120
        (some ⟨none, [⟨["B0SEEDSEED", "B0BBBBBBB2"], [], [], []⟩]⟩)).1,
      pyUpper x ≠ pyUpper "b0seedSEED")) :=
  ⟨⟨by decide, by decide, by decide⟩,
    seed_never_in_discovery id (some ⟨["B0AAAAAAA1"], []⟩)
      (some ⟨none, [⟨["B0SEEDSEED", "B0BBBBBBB2"], [], [], []⟩]⟩)
      "b0seedSEED" "k" 120 (by decide) (by decide) (by decide)⟩

theorem keepa_out_eq (enumSet : List String → List String)
    (seed key : String) (n : Nat) (resp : Option KeepaResponse) :
    (_keepa_fetch_related_rest enumSet seed key n resp).1 = [] ∨
    (_keepa_fetch_related_rest enumSet seed key n resp).1
      = List.take n (enumSet (keepaContents seed resp)) := by
  unfold _keepa_fetch_related_rest
  by_cases hkey : key = ""
  · simp [hkey]
  · cases resp with
    | none => simp [hkey]
    | some data =>
      by_cases herr : (data.error.getD "") ≠ ""
      · simp [hkey, herr]
      · rcases hprod : data.products with _ | ⟨p, rest⟩
        · simp [hkey, herr, hprod]
        · right
          simp [hkey, herr, hprod, keepaContents, apply_ite Prod.fst]

theorem pySetAdd_nodup {l : List String} {x : String} (h : l.Nodup) :
    (pySetAdd l x).Nodup := by
  unfold pySetAdd
  split
  · exact h
  · rename_i hx
    simpa [List.nodup_append] using ⟨h, hx⟩

theorem foldl_nodup {α : Type} {f : List String → α → List String}
    (hf : ∀ acc x, acc.Nodup → (f acc x).Nodup) :
    ∀ (xs : List α) (acc : List String), acc.Nodup → (xs.foldl f acc).Nodup
  | [], _, hacc => hacc
  | x :: xs, acc, hacc => foldl_nodup hf xs (f acc x) (hf acc x hacc)

theorem keepaContents_nodup (seed : String) (resp : Option KeepaResponse) :
    (keepaContents seed resp).Nodup := by
  unfold keepaContents
  split
  · exact List.nodup_nil
  · split
    · exact List.nodup_nil
    · refine List.Nodup.filter _ ?_
      unfold keepaMatched
      refine foldl_nodup ?_ _ _ List.nodup_nil
      intro acc x hacc
      dsimp only
      split
      · exact pySetAdd_nodup hacc
      · exact hacc

/-- C5 counterexample: with a legitimate set enumeration (here: reversal,
which lists exactly the set's elements), the structured source's output
differs from the first-seen insertion order of the matched identifiers. -/
theorem keepa_order_counterexample :
    (List.reverse (keepaInsertionOrder
        ⟨["B0AAAAAAAA", "B0BBBBBBBB"], [], [], []⟩ "B0SEEDSEED")).Perm
      (keepaInsertionOrder
        ⟨["B0AAAAAAAA", "B0BBBBBBBB"], [], [], []⟩ "B0SEEDSEED") ∧
    (_keepa_fetch_related_rest List.reverse "B0SEEDSEED" "k" 200
        (some ⟨none, [⟨["B0AAAAAAAA", "B0BBBBBBBB"], [], [], []⟩]⟩)).1
      ≠ List.take 200 (keepaInsertionOrder
        ⟨["B0AAAAAAAA", "B0BBBBBBBB"], [], [], []⟩ "B0SEEDSEED") := by
  constructor
  · decide
  · decide

/-- C5 amended: the structured source's candidate list is a pure function
of the response and the set-enumeration order; it lists, without
duplicates, identifiers drawn from the first-seen matched set (all of them
when the cap allows), but in the enumeration order rather than necessarily
in first-seen insertion order. -/
theorem keepa_order_amended (enumSet : List String → List String)
    (seed key : String) (n : Nat) (resp : Option KeepaResponse)
    (hK : (enumSet (keepaContents seed resp)).Perm (keepaContents seed resp)) :
    (∀ x ∈ (_keepa_fetch_related_rest enumSet seed key n resp).1,
      x ∈ keepaContents seed resp) ∧
    (_keepa_fetch_related_rest enumSet seed key n resp).1.Nodup ∧
    ((keepaContents seed resp).length ≤ n →
      ((_keepa_fetch_related_rest enumSet seed key n resp).1.Perm
          (keepaContents seed resp) ∨
        (_keepa_fetch_related_rest enumSet seed key n resp).1 = [])) := by
  refine ⟨keepa_out_subset enumSet seed key n resp hK, ?_, ?_⟩
  · rcases keepa_out_eq enumSet seed key n resp with h | h
    · rw [h]; exact List.nodup_nil
    · rw [h]
      refine List.Sublist.nodup (List.take_sublist _ _) ?_
      exact hK.nodup_iff.mpr (keepaContents_nodup seed resp)
  · intro hlen
    rcases keepa_out_eq enumSet seed key n resp with h | h
    · exact Or.inr h
    · left
      rw [h, List.take_of_length_le (by rw [hK.length_eq]; exact hlen)]
      exact hK

/-- Witness for C5's amended theorem at a concrete response. -/
theorem keepa_order_amended_witness :
    (id (keepaContents "B0SEEDSEED"
        (some ⟨none, [⟨["B0AAAAAAAA"], [], [], []⟩]⟩))).Perm
      (keepaContents "B0SEEDSEED"
        (some ⟨none, [⟨["B0AAAAAAAA"], [], [], []⟩]⟩)) ∧
    ((∀ x ∈ (_keepa_fetch_related_rest id "B0SEEDSEED" "k" 5
        (some ⟨none, [⟨["B0AAAAAAAA"], [], [], []⟩]⟩)).1,
      x ∈ keepaContents "B0SEEDSEED"
        (some ⟨none, [⟨["B0AAAAAAAA"], [], [], []⟩]⟩)) ∧
    (_keepa_fetch_related_rest id "B0SEEDSEED" "k" 5
        (some ⟨none, [⟨["B0AAAAAAAA"], [], [], []⟩]⟩)).1.Nodup ∧
    ((keepaContents "B0SEEDSEED"
        (some ⟨none, [⟨["B0AAAAAAAA"], [], [], []⟩]⟩)).length ≤ 5 →
      ((_keepa_fetch_related_rest id "B0SEEDSEED" "k" 5
          (some ⟨none, [⟨["B0AAAAAAAA"], [], [], []⟩]⟩)).1.Perm
          (keepaContents "B0SEEDSEED"
            (some ⟨none, [⟨["B0AAAAAAAA"], [], [], []⟩]⟩)) ∨
        (_keepa_fetch_related_rest id "B0SEEDSEED" "k" 5
          (some ⟨none, [⟨["B0AAAAAAAA"], [], [], []⟩]⟩)).1 = []))) :=
  ⟨by decide, keepa_order_amended id "B0SEEDSEED" "k" 5
    (some ⟨none, [⟨["B0AAAAAAAA"], [], [], []⟩]⟩) (by decide)⟩

theorem keyLe_trans : ∀ (a b c : ScoredRow), keyLe a b → keyLe b c → keyLe a c := by
  intro a b c hab hbc
  simp only [keyLe, decide_eq_true_eq] at hab hbc ⊢
  exact le_trans hbc hab

theorem keyLe_total : ∀ (a b : ScoredRow), keyLe a b || keyLe b a := by
  intro a b
  simp only [keyLe, Bool.or_eq_true, decide_eq_true_eq]
  exact le_total _ _

theorem keyLe_of_rowKey_eq {a b : ScoredRow} (h : rowKey a = rowKey b) :
    keyLe a b = true := by
  simp only [rowKey, Prod.mk.injEq] at h
  simp only [keyLe, decide_eq_true_eq]
  unfold sortKey
  rw [h.1, h.2.1, h.2.2]

/-- C2: the kept output is sorted descending by the key (score, review
count, rating) — absent values last — with ties kept in input order
(stability, expressed as: restricting the sorted output to any fixed key
value gives exactly the input-ordered kept rows of that key), and both the
pre-sort kept sequence and the dropped sequence preserve input order
(they are sublists of the scored input sequence). -/
theorem filter_output_order (rows : List ProductSnapshot) (c : FilterCriteria) :
    ((score_and_filter rows c).1).Pairwise (fun a b => keyLe a b = true) ∧
    ((score_and_filter rows c).1).Perm (keptPre rows c) ∧
    (∀ k : Nat × Option Nat × Option ℚ,
      ((score_and_filter rows c).1).filter (fun s => decide (rowKey s = k))
        = (keptPre rows c).filter (fun s => decide (rowKey s = k))) ∧
    List.Sublist (keptPre rows c) ((allScored rows c).map fun p => p.1) ∧
    List.Sublist ((score_and_filter rows c).2)
      ((allScored rows c).map fun p => p.1) := by
  refine ⟨?_, ?_, ?_, ?_, ?_⟩
  · exact List.sorted_mergeSort keyLe_trans keyLe_total (keptPre rows c)
  · exact List.mergeSort_perm (keptPre rows c) keyLe
  · intro k
    have hc0 : ((keptPre rows c).filter fun s => decide (rowKey s = k)).Pairwise
        (fun a b => keyLe a b = true) := by
      refine List.pairwise_of_forall_mem_list ?_
      intro a ha b hb
      rw [List.mem_filter] at ha hb
      exact keyLe_of_rowKey_eq
        (by rw [of_decide_eq_true ha.2, of_decide_eq_true hb.2])
    have hsub : List.Sublist
        ((keptPre rows c).filter fun s => decide (rowKey s = k))
        ((score_and_filter rows c).1) :=
      List.sublist_mergeSort keyLe_trans keyLe_total hc0 (List.filter_sublist _)
    have hsub2 : List.Sublist
        ((keptPre rows c).filter fun s => decide (rowKey s = k))
        ((score_and_filter rows c).1.filter fun s => decide (rowKey s = k)) := by
      have h2 := List.Sublist.filter (fun s => decide (rowKey s = k)) hsub
      simpa only [List.filter_filter, Bool.and_self] using h2
    have hlen : ((score_and_filter rows c).1.filter
          fun s => decide (rowKey s = k)).length
        = ((keptPre rows c).filter fun s => decide (rowKey s = k)).length :=
      ((List.mergeSort_perm (keptPre rows c) keyLe).filter _).length_eq
    exact ( List.Sublist.eq_of_length hsub2 hlen.symm).symm
  · unfold keptPre
    exact List.Sublist.map _ (List.filter_sublist _)
  · unfold score_and_filter droppedRows
    exact List.Sublist.map _ (List.filter_sublist _)

theorem pyLowerChar_idem (c : Char) : pyLowerChar (pyLowerChar c) = pyLowerChar c := by
  by_cases h : (65 ≤ c.toNat && c.toNat ≤ 90) = true
  · have h2 : 65 ≤ c.toNat ∧ c.toNat ≤ 90 := by
      rw [Bool.and_eq_true, decide_eq_true_eq, decide_eq_true_eq] at h
      exact h
    have hval : Nat.isValidChar (c.toNat + 32) := Or.inl (by omega)
    have h1 : pyLowerChar c = Char.ofNat (c.toNat + 32) := by
      unfold pyLowerChar
      rw [if_pos h]
    rw [h1]
    unfold pyLowerChar
    rw [if_neg (by
      rw [charToNat_ofNat hval]
      simp only [Bool.and_eq_true, decide_eq_true_eq, not_and]
      omega)]
  · have h1 : pyLowerChar c = c := by
      unfold pyLowerChar
      rw [if_neg h]
    rw [h1, h1]

theorem map_pyLowerChar_of_within {l m : List Char}
    (h : l <:+: m.map pyLowerChar) : l.map pyLowerChar = l := by
  have hall : ∀ c ∈ l, pyLowerChar c = id c := by
    intro c hc
    have hcm : c ∈ m.map pyLowerChar := h.sublist.subset hc
    obtain ⟨d, _, hdc⟩ := List.mem_map.mp hcm
    rw [← hdc]
    exact pyLowerChar_idem d
  rw [ List.map_congr_left hall, List.map_id]

theorem pyStrip_data (s : String) :
    (pyStrip s).data
      = List.rdropWhile isSpaceChar (s.data.dropWhile isSpaceChar) := rfl

theorem pyStrip_within (s : String) : (pyStrip s).data <:+: s.data := by
  rw [pyStrip_data]
  have h1 : (s.data.dropWhile isSpaceChar) <:+ s.data := List.dropWhile_suffix _
  have h2 : List.rdropWhile isSpaceChar (s.data.dropWhile isSpaceChar)
      <+: (s.data.dropWhile isSpaceChar) := List.rdropWhile_prefix _ _
  exact List.IsInfix.trans ( List.IsPrefix.isInfix h2) ( List.IsSuffix.isInfix h1)

theorem pyStrip_idem (s : String) : pyStrip (pyStrip s) = pyStrip s := by
  have hB : (pyStrip s).data
      = List.rdropWhile isSpaceChar (s.data.dropWhile isSpaceChar) := rfl
  have hstep1 : (pyStrip s).data.dropWhile isSpaceChar = (pyStrip s).data := by
    rw [List.dropWhile_eq_self_iff]
    intro hl
    have hBne : (pyStrip s).data ≠ [] := List.length_pos.mp hl
    have hpre : (pyStrip s).data <+: (s.data.dropWhile isSpaceChar) := by
      rw [hB]; exact List.rdropWhile_prefix _ _
    have hAne : (s.data.dropWhile isSpaceChar) ≠ [] := by
      intro hA
      exact hBne (List.prefix_nil.mp (hA ▸ hpre))
    have hget : (pyStrip s).data.get ⟨0, hl⟩ = (pyStrip s).data.head hBne := by
      rw [List.head_eq_getElem]
      rfl
    rw [hget, List.IsPrefix.head hpre hBne]
    intro hsp
    rw [List.head_dropWhile_not isSpaceChar s.data] at hsp
    exact Bool.false_ne_true hsp
  show String.mk ((((pyStrip s).data.dropWhile isSpaceChar).reverse.dropWhile
      isSpaceChar).reverse) = pyStrip s
  rw [hstep1]
  show String.mk (List.rdropWhile isSpaceChar (pyStrip s).data) = pyStrip s
  rw [hB, List.rdropWhile_idempotent]
  rfl

theorem lower_fix_of_infix {t x : String}
    (h : t.data <:+: (pyLower x).data) : pyLower t = t := by
  obtain ⟨l⟩ := t
  exact congrArg String.mk (map_pyLowerChar_of_within h)

theorem contains_any_of_mem_substr {x : String} {terms : List String}
    {t : String} (ht : t ∈ terms) (hne : pyStrip t ≠ "")
    (hsub : t.data <:+: (pyLower x).data) :
    contains_any (pyLower x) (prepTerms terms) = true := by
  have hst : (pyStrip t).data <:+: (pyLower x).data :=
    List.IsInfix.trans (pyStrip_within t) hsub
  have hstl : pyLower (pyStrip t) = pyStrip t := lower_fix_of_infix hst
  have hmem : pyLower (pyStrip t) ∈ prepTerms terms := by
    unfold prepTerms
    exact List.mem_map_of_mem _ (List.mem_filter.mpr ⟨ht, by simpa using hne⟩)
  unfold contains_any
  rw [List.any_eq_true]
  refine ⟨pyLower (pyStrip t), hmem, ?_⟩
  dsimp only
  rw [hstl, pyStrip_idem, hstl]
  rw [Bool.and_eq_true]
  exact ⟨by simpa using hne, decide_eq_true hst⟩

theorem rowDecision_veto {inc exc : List String} {c : FilterCriteria}
    {kRat kRev : AbsentKind} {w : WorkRow}
    (hca : contains_any w.title exc = true) :
    rowDecision inc exc c kRat kRev w = (0, true) := by
  unfold rowDecision
  rw [if_pos hca]

theorem evalRow_mem_dropped {rows : List ProductSnapshot} {c : FilterCriteria}
    {r : ProductSnapshot} (hr : r ∈ rows)
    (hd : (evalRow (prepTerms c.include_terms) (prepTerms c.exclude_terms) c
      (ratingKind rows) (reviewsKind rows) r).2 = true) :
    (evalRow (prepTerms c.include_terms) (prepTerms c.exclude_terms) c
      (ratingKind rows) (reviewsKind rows) r).1
      ∈ (score_and_filter rows c).2 := by
  unfold score_and_filter droppedRows allScored
  exact List.mem_map_of_mem _ (List.mem_filter.mpr ⟨ List.mem_map_of_mem _ hr, hd⟩)

theorem evalRow_not_mem_kept {rows : List ProductSnapshot} {c : FilterCriteria}
    {r : ProductSnapshot}
    (hd : (evalRow (prepTerms c.include_terms) (prepTerms c.exclude_terms) c
      (ratingKind rows) (reviewsKind rows) r).2 = true) :
    (evalRow (prepTerms c.include_terms) (prepTerms c.exclude_terms) c
      (ratingKind rows) (reviewsKind rows) r).1
      ∉ (score_and_filter rows c).1 := by
  intro hmem
  rw [show (score_and_filter rows c).1
      = List.mergeSort (keptPre rows c) keyLe from rfl,
    List.mem_mergeSort] at hmem
  unfold keptPre at hmem
  obtain ⟨p, hp, hp1⟩ := List.mem_map.mp hmem
  rw [List.mem_filter] at hp
  obtain ⟨hpin, hpneg⟩ := hp
  have hpfalse : p.2 = false := by simpa using hpneg
  unfold allScored at hpin
  obtain ⟨r1, _, hreq⟩ := List.mem_map.mp hpin
  have hkey : p.2
      = (rowDecision (prepTerms c.include_terms) (prepTerms c.exclude_terms)
          c (ratingKind rows) (reviewsKind rows) p.1.row).2 := by
    rw [← hreq]; rfl
  have hkey2 : (evalRow (prepTerms c.include_terms) (prepTerms c.exclude_terms)
        c (ratingKind rows) (reviewsKind rows) r).2
      = (rowDecision (prepTerms c.include_terms) (prepTerms c.exclude_terms)
          c (ratingKind rows) (reviewsKind rows)
          ((evalRow (prepTerms c.include_terms) (prepTerms c.exclude_terms)
            c (ratingKind rows) (reviewsKind rows) r).1).row).2 := rfl
  rw [hkey, hp1, ← hkey2, hd] at hpfalse
  exact absurd hpfalse (by simp)

/-- C3 counterexample: the exclude term `" "` is non-empty and occurs in
the lowercased title `"a b"`, yet the filter keeps the snapshot (the code
strips terms and skips those that become empty, so a whitespace-only
exclude term never vetoes anything). -/
theorem exclude_veto_counterexample :
    (" " ∈ [" "] ∧ " " ≠ "" ∧ isSubstr " " (pyLower "a b") = true) ∧
    (score_and_filter [⟨"B0AAAAAAA1", some "a b", none, none, none, "u"⟩]
        ⟨[], [" "], none, none, none, none⟩).2 = [] ∧
    (evalRow (prepTerms []) (prepTerms [" "])
        ⟨[], [" "], none, none, none, none⟩
        (ratingKind [⟨"B0AAAAAAA1", some "a b", none, none, none, "u"⟩])
        (reviewsKind [⟨"B0AAAAAAA1", some "a b", none, none, none, "u"⟩])
        ⟨"B0AAAAAAA1", some "a b", none, none, none, "u"⟩).2 = false := by
  refine ⟨⟨by decide, by decide, by decide⟩, by decide, by decide⟩

/-- C3 amended: a snapshot whose lowercased title contains an exclude term
that remains non-empty after whitespace trimming is dropped with relevance
score 0, regardless of include terms and thresholds. -/
theorem exclude_veto_drops (rows : List ProductSnapshot) (c : FilterCriteria)
    (r : ProductSnapshot) (t : String)
    (hr : r ∈ rows) (ht : t ∈ c.exclude_terms) (hne : pyStrip t ≠ "")
    (hsub : t.data <:+: (pyLower (r.title.getD "")).data) :
    (evalRow (prepTerms c.include_terms) (prepTerms c.exclude_terms) c
      (ratingKind rows) (reviewsKind rows) r).1.score = 0 ∧
    (evalRow (prepTerms c.include_terms) (prepTerms c.exclude_terms) c
      (ratingKind rows) (reviewsKind rows) r).1
      ∈ (score_and_filter rows c).2 ∧
    (evalRow (prepTerms c.include_terms) (prepTerms c.exclude_terms) c
      (ratingKind rows) (reviewsKind rows) r).1
      ∉ (score_and_filter rows c).1 := by
  have hca : contains_any (normalizeRow r).title (prepTerms c.exclude_terms)
      = true := contains_any_of_mem_substr ht hne hsub
  have hdec : rowDecision (prepTerms c.include_terms) (prepTerms c.exclude_terms)
      c (ratingKind rows) (reviewsKind rows) (normalizeRow r) = (0, true) :=
    rowDecision_veto hca
  have hd : (evalRow (prepTerms c.include_terms) (prepTerms c.exclude_terms)
      c (ratingKind rows) (reviewsKind rows) r).2 = true := by
    show (rowDecision (prepTerms c.include_terms) (prepTerms c.exclude_terms)
      c (ratingKind rows) (reviewsKind rows) (normalizeRow r)).2 = true
    rw [hdec]
  refine ⟨?_, evalRow_mem_dropped hr hd, evalRow_not_mem_kept hd⟩
  show (rowDecision (prepTerms c.include_terms) (prepTerms c.exclude_terms)
    c (ratingKind rows) (reviewsKind rows) (normalizeRow r)).1 = 0
  rw [hdec]

/-- Witness for C3's amended theorem: `"reptile"` vetoes
`"Reptile Heat Mat"` despite an include match and passing thresholds. -/
theorem exclude_veto_drops_witness :
    ((⟨"B0AAAAAAA1", some "Reptile Heat Mat", some 20, some (4 : ℚ),
        some 200, "u"⟩ : ProductSnapshot) ∈
      [(⟨"B0AAAAAAA1", some "Reptile Heat Mat", some 20, some (4 : ℚ),
        some 200, "u"⟩ : ProductSnapshot)] ∧
      "reptile" ∈ (⟨["heat"], ["reptile"], some 10, none, none,
        none⟩ : FilterCriteria).exclude_terms ∧
      pyStrip "reptile" ≠ "" ∧
      ("reptile".data <:+:
        (pyLower ((some "Reptile Heat Mat").getD "")).data)) ∧
    ((evalRow (prepTerms ["heat"]) (prepTerms ["reptile"])
        ⟨["heat"], ["reptile"], some 10, none, none, none⟩
        (ratingKind [⟨"B0AAAAAAA1", some "Reptile Heat Mat", some 20,
          some (4 : ℚ), some 200, "u"⟩])
        (reviewsKind [⟨"B0AAAAAAA1", some "Reptile Heat Mat", some 20,
          some (4 : ℚ), some 200, "u"⟩])
        ⟨"B0AAAAAAA1", some "Reptile Heat Mat", some 20, some (4 : ℚ),
          some 200, "u"⟩).1.score = 0 ∧
      (evalRow (prepTerms ["heat"]) (prepTerms ["reptile"])
        ⟨["heat"], ["reptile"], some 10, none, none, none⟩
        (ratingKind [⟨"B0AAAAAAA1", some "Reptile Heat Mat", some 20,
          some (4 : ℚ), some 200, "u"⟩])
        (reviewsKind [⟨"B0AAAAAAA1", some "Reptile Heat Mat", some 20,
          some (4 : ℚ), some 200, "u"⟩])
        ⟨"B0AAAAAAA1", some "Reptile Heat Mat", some 20, some (4 : ℚ),
          some 200, "u"⟩).1
        ∈ (score_and_filter
          [⟨"B0AAAAAAA1", some "Reptile Heat Mat", some 20, some (4 : ℚ),
            some 200, "u"⟩]
          ⟨["heat"], ["reptile"], some 10, none, none, none⟩).2 ∧
      (evalRow (prepTerms ["heat"]) (prepTerms ["reptile"])
        ⟨["heat"], ["reptile"], some 10, none, none, none⟩
        (ratingKind [⟨"B0AAAAAAA1", some "Reptile Heat Mat", some 20,
          some (4 : ℚ), some 200, "u"⟩])
        (reviewsKind [⟨"B0AAAAAAA1", some "Reptile Heat Mat", some 20,
          some (4 : ℚ), some 200, "u"⟩])
        ⟨"B0AAAAAAA1", some "Reptile Heat Mat", some 20, some (4 : ℚ),
          some 200, "u"⟩).1
        ∉ (score_and_filter
          [⟨"B0AAAAAAA1", some "Reptile Heat Mat", some 20, some (4 : ℚ),
            some 200, "u"⟩]
          ⟨["heat"], ["reptile"], some 10, none, none, none⟩).1) :=
  ⟨⟨by decide, by decide, by decide, by decide⟩,
    exclude_veto_drops
      [⟨"B0AAAAAAA1", some "Reptile Heat Mat", some 20, some (4 : ℚ),
        some 200, "u"⟩]
      ⟨["heat"], ["reptile"], some 10, none, none, none⟩
      ⟨"B0AAAAAAA1", some "Reptile Heat Mat", some 20, some (4 : ℚ),
        some 200, "u"⟩
      "reptile" (by decide) (by decide) (by decide) (by decide)⟩

/-- C7 (code bug): the fail-closed claim fails on the program.  In a batch
mixing present and absent ratings the rating column of the frame built at
app.py 341 is `float64`, the absent rating reads back as `NaN`, and at
app.py 257 both `rating is None` and `nan < rating_min` are `False` — so
the missing-rating snapshot is kept although `rating_min` is configured
(the review-count check at app.py 259 has the same shape).  Below, the
snapshot without a rating passes the filter and nothing at all is
dropped, although the code's own `is None` test shows it meant to drop
it. -/
theorem missing_rating_kept_in_mixed_batch :
    ratingKind
        [⟨"B0AAAAAAA1", some "x", none, some (4 : ℚ), none, "u"⟩,
          ⟨"B0BBBBBBB2", some "y", none, none, none, "u"⟩]
      = AbsentKind.asNaN ∧
    (⟨[], [], none, none, some (3 : ℚ), none⟩ :
      FilterCriteria).rating_min.isSome = true ∧
    (⟨"B0BBBBBBB2", some "y", none, none, none, "u"⟩ :
      ProductSnapshot).rating = none ∧
    (evalRow (prepTerms []) (prepTerms [])
        ⟨[], [], none, none, some (3 : ℚ), none⟩
        (ratingKind
          [⟨"B0AAAAAAA1", some "x", none, some (4 : ℚ), none, "u"⟩,
            ⟨"B0BBBBBBB2", some "y", none, none, none, "u"⟩])
        (reviewsKind
          [⟨"B0AAAAAAA1", some "x", none, some (4 : ℚ), none, "u"⟩,
            ⟨"B0BBBBBBB2", some "y", none, none, none, "u"⟩])
        ⟨"B0BBBBBBB2", some "y", none, none, none, "u"⟩).2 = false ∧
    (score_and_filter
        [⟨"B0AAAAAAA1", some "x", none, some (4 : ℚ), none, "u"⟩,
          ⟨"B0BBBBBBB2", some "y", none, none, none, "u"⟩]
        ⟨[], [], none, none, some (3 : ℚ), none⟩).2 = [] := by
  refine ⟨by decide, by decide, by decide, by decide, by decide⟩

theorem rowDecision_price_invariant (inc exc : List String) (c : FilterCriteria)
    (kRat kRev : AbsentKind) (w : WorkRow) (hp : w.price = none) :
    rowDecision inc exc c kRat kRev w
      = rowDecision inc exc
          ⟨c.include_terms, c.exclude_terms, none, none,
            c.rating_min, c.reviews_min⟩ kRat kRev w := by
  obtain ⟨ci, ce, cpm, cpM, crm, crv⟩ := c
  unfold rowDecision
  by_cases hca : contains_any w.title exc = true
  · rw [if_pos hca, if_pos hca]
  · rw [if_neg hca, if_neg hca]
    dsimp only
    rw [hp]
    cases cpm <;> cases cpM <;> rfl

/-- C10: when a snapshot's price is absent, the filter's decision is the
same as if no price bounds were configured at all, under either
representation of the absent values of this batch — a literal `None` fails
the `isinstance` test and a `NaN` fails both comparisons, so the price
thresholds are fail-open on missing price data. -/
theorem missing_price_fail_open (inc exc : List String) (c : FilterCriteria)
    (kRat kRev : AbsentKind) (r : ProductSnapshot) (hp : r.price = none) :
    evalRow inc exc c kRat kRev r
      = evalRow inc exc
          ⟨c.include_terms, c.exclude_terms, none, none,
            c.rating_min, c.reviews_min⟩ kRat kRev r := by
  unfold evalRow
  dsimp only
  rw [rowDecision_price_invariant inc exc c kRat kRev (normalizeRow r)
    (show (normalizeRow r).price = none from hp)]

/-- Witness for C10 at a concrete snapshot without a price while both price
bounds are configured. -/
theorem missing_price_fail_open_witness :
    ((⟨"B0AAAAAAA1", some "x", none, some (4 : ℚ), some 5,
        "u"⟩ : ProductSnapshot).price = none) ∧
    (evalRow ["heat"] ["cat"]
        ⟨["heat"], ["cat"], some (10 : ℚ), some (60 : ℚ), none, none⟩
        AbsentKind.asNaN AbsentKind.asNone
        ⟨"B0AAAAAAA1", some "x", none, some (4 : ℚ), some 5, "u"⟩
      = evalRow ["heat"] ["cat"]
        ⟨(⟨["heat"], ["cat"], some (10 : ℚ), some (60 : ℚ), none,
            none⟩ : FilterCriteria).include_terms,
          (⟨["heat"], ["cat"], some (10 : ℚ), some (60 : ℚ), none,
            none⟩ : FilterCriteria).exclude_terms, none, none,
          (⟨["heat"], ["cat"], some (10 : ℚ), some (60 : ℚ), none,
            none⟩ : FilterCriteria).rating_min,
          (⟨["heat"], ["cat"], some (10 : ℚ), some (60 : ℚ), none,
            none⟩ : FilterCriteria).reviews_min⟩
        AbsentKind.asNaN AbsentKind.asNone
        ⟨"B0AAAAAAA1", some "x", none, some (4 : ℚ), some 5, "u"⟩) :=
  ⟨by decide,
    missing_price_fail_open ["heat"] ["cat"]
      ⟨["heat"], ["cat"], some (10 : ℚ), some (60 : ℚ), none, none⟩
      AbsentKind.asNaN AbsentKind.asNone
      ⟨"B0AAAAAAA1", some "x", none, some (4 : ℚ), some 5, "u"⟩ (by decide)⟩
